import Mathlib

/-!
Verification development for the script-slots Foundry VTT module.

The repository contains several near-duplicate variants of the module.  Each
variant is embedded in its own namespace:

* `VarA` — `src/script-slots.js`, first segment (lines 1-125): minimal map
  store, `run` with per-slot `requireOwner`.
* `VarB` — `src/script-slots.js`, second segment (lines 126-613): array
  store, `findScriptByName`, socket protocol with `type: "RUN"`.
* `VarC` — `src/script-slots.js`, third segment (lines 614-1081):
  `compileRunner`, `validateRequest`, `runSlotAsGM`, public
  `game.scriptsSlots.run`.
* `VarD` — `src/unnamed/part_000`, first segment (lines 1-511):
  `executeEntryAsGM`, socket handler for `SCRIPT_SLOTS_RUN`, config UI with
  `_onAdd` / `_onExport` / `_onImport`, `list` via `Object.keys(...).sort()`.
* `VarE` — `src/unnamed/part_000`, second segment (lines 512-945):
  `runSlotAsGM` with `userCanRequestActor`.

JavaScript engine behaviour (execution of arbitrary slot code) is abstracted
by explicit behaviour oracles, except for the small statement fragment that
the concrete claim inputs exercise, which is given a deep embedding
(`JsStmt`) together with a faithful model of the `function run(` detection
regexes and of the two wrapping strategies of `compileRunner`.
-/

namespace ScriptSlots

/-! Shared models of JavaScript string primitives. -/

/-- Whitespace characters recognised by the model of JS `\s`, `trim` and the
tokenizer (the ASCII subset, which covers every string in the sources). -/
def isJsWs (c : Char) : Bool :=
  c = ' ' || c = '\t' || c = '\n' || c = '\r' || c = '\x0b' || c = '\x0c'

/-- Model of `String.prototype.trim`: drop leading and trailing whitespace. -/
def trimStr (s : String) : String :=
  ⟨((s.data.dropWhile isJsWs).reverse.dropWhile isJsWs).reverse⟩

/-- Model of `normalizeName` / `normName` / `normalizeSlotName` from the
sources: `String(name ?? "").trim()`. -/
def normalizeName (s : String) : String := trimStr s

/-- Model of `String.prototype.toLowerCase` (ASCII letters, which covers
every name in the sources and claims). -/
def lowerStr (s : String) : String := ⟨s.data.map Char.toLower⟩

/-- Trimmed, lower-cased key: the comparison key used by
`findScriptByName` in `src/script-slots.js` lines 149-152. -/
def ciKey (s : String) : String := lowerStr (trimStr s)

/-- Model of `isNonEmptyString(x)` from the sources:
`typeof x === "string" && x.trim().length > 0` (applied to strings). -/
def isNonEmptyString (s : String) : Bool := !(trimStr s).data.isEmpty

/-- Code-unit comparison of character lists: the comparison performed by the
default comparator of `Array.prototype.sort` on strings.  `chListLe a b`
means `a` sorts at or before `b`. -/
def chListLe : List Char → List Char → Bool
  | [], _ => true
  | _ :: _, [] => false
  | a :: as, b :: bs =>
    if a.toNat < b.toNat then true
    else if b.toNat < a.toNat then false
    else chListLe as bs

/-- String order used by JS `Array.prototype.sort()` with no comparator. -/
def strLe (a b : String) : Bool := chListLe a.data b.data

/-- Insertion of one string into a sorted list under `strLe`. -/
def jsInsert (x : String) : List String → List String
  | [] => [x]
  | y :: ys => if strLe x y then x :: y :: ys else y :: jsInsert x ys

/-- Model of `Array.prototype.sort()` with the default comparator: the result
is the input reordered so that `strLe` holds between neighbours. -/
def jsSort : List String → List String
  | [] => []
  | x :: xs => jsInsert x (jsSort xs)

/-- Modelled from the spec: case-insensitive lexicographic comparison of slot
names, the order the spec prescribes for `list()` ("case-insensitive
lexicographic order for display"). -/
def ciLe (a b : String) : Bool := chListLe (lowerStr a).data (lowerStr b).data

/-- Boolean check that a list of strings is sorted under `le`. -/
def sortedBy (le : String → String → Bool) : List String → Bool
  | [] => true
  | [_] => true
  | a :: b :: r => le a b && sortedBy le (b :: r)

/-! Model of plain JS objects used as string-keyed maps (`scripts[name]`,
`Object.keys`, `obj[k] = v`).  Keys are unique in a JS object, so the store
is an insertion-ordered association list with distinct keys. -/

namespace JsObj

variable {α : Type}

/-- Property read `st[k]`. -/
def lookupKV : List (String × α) → String → Option α
  | [], _ => none
  | kv :: rest, k => if kv.1 = k then some kv.2 else lookupKV rest k

/-- Property write `st[k] = e`: overwrite in place if the key exists
(JS objects keep the original insertion position), else append. -/
def objSet : List (String × α) → String → α → List (String × α)
  | [], k, e => [(k, e)]
  | kv :: rest, k, e => if kv.1 = k then (k, e) :: rest else kv :: objSet rest k e

/-- Model of `Object.keys`. -/
def keysOf (st : List (String × α)) : List String := st.map Prod.fst

end JsObj

/-! Model of the `run`-declaration detection regexes of `compileRunner`
(`src/script-slots.js` lines 655-673):
`/\basync\s+function\s+run\s*\(/` and `/\bfunction\s+run\s*\(/`. -/

/-- Regex word character (`\w`), for the word boundary `\b`. -/
def isWordChar (c : Char) : Bool := c.isAlpha || c.isDigit || c = '_'

/-- Match a literal character sequence at the head of the input, returning
the remaining input. -/
def matchChars : List Char → List Char → Option (List Char)
  | [], rest => some rest
  | _ :: _, [] => none
  | p :: ps, c :: cs => if c = p then matchChars ps cs else none

/-- Greedy `\s*`. -/
def ws0 : List Char → List Char
  | [] => []
  | c :: cs => if isJsWs c then ws0 cs else c :: cs

/-- Greedy `\s+`. -/
def ws1 : List Char → Option (List Char)
  | [] => none
  | c :: cs => if isJsWs c then some (ws0 cs) else none

/-- Match `function\s+run\s*\(` at the head of the input. -/
def matchFunRun (l : List Char) : Bool :=
  match matchChars "function".data l with
  | none => false
  | some r1 =>
    match ws1 r1 with
    | none => false
    | some r2 =>
      match matchChars "run".data r2 with
      | none => false
      | some r3 =>
        match ws0 r3 with
        | '(' :: _ => true
        | _ => false

/-- Match `async\s+function\s+run\s*\(` at the head of the input. -/
def matchAsyncFunRun (l : List Char) : Bool :=
  match matchChars "async".data l with
  | none => false
  | some r1 =>
    match ws1 r1 with
    | none => false
    | some r2 => matchFunRun r2

/-- Scan the input for a position where `pat` matches and the preceding
character is not a word character (the `\b` boundary; the parameter tracks
whether the previous character was a word character). -/
def scanFor (pat : List Char → Bool) : Bool → List Char → Bool
  | _, [] => false
  | prevWord, c :: cs => ((!prevWord) && pat (c :: cs)) || scanFor pat (isWordChar c) cs

/-- Model of `hasRunDecl` in `compileRunner`:
`/\basync\s+function\s+run\s*\(/.test(src) || /\bfunction\s+run\s*\(/.test(src)`. -/
def hasRunDecl (src : String) : Bool :=
  scanFor matchAsyncFunRun false src.data || scanFor matchFunRun false src.data

/-! Deep embedding of the JavaScript statement fragment exercised by the
claims' concrete slot sources: `return <literal>;`, function declarations of
one parameter, line comments.  This is the fragment the `new Function`
calls of `compileRunner` are evaluated on in the development; all other
execution behaviour is abstracted by oracles. -/

/-- Statements of the embedded fragment. -/
inductive JsStmt where
  | ret (n : Nat)
  | fdecl (name param : String) (body : List JsStmt)
deriving Repr

/-- Tokens of the embedded fragment. -/
inductive Tok where
  | kwFunction
  | kwReturn
  | ident (s : String)
  | num (n : Nat)
  | lparen
  | rparen
  | lbrace
  | rbrace
  | semi
deriving Repr, DecidableEq

/-- Leading character of an identifier. -/
def isIdentStart (c : Char) : Bool := c.isAlpha || c = '_'

/-- Body character of an identifier. -/
def isIdentChar (c : Char) : Bool := c.isAlpha || c.isDigit || c = '_'

/-- Split off a maximal identifier prefix. -/
def takeIdent : List Char → List Char × List Char
  | [] => ([], [])
  | c :: cs =>
    if isIdentChar c then
      let p := takeIdent cs
      (c :: p.1, p.2)
    else ([], c :: cs)

/-- Split off a maximal digit prefix. -/
def takeDigits : List Char → List Char × List Char
  | [] => ([], [])
  | c :: cs =>
    if c.isDigit then
      let p := takeDigits cs
      (c :: p.1, p.2)
    else ([], c :: cs)

/-- Decimal value of a digit list. -/
def digitsToNat (l : List Char) : Nat :=
  l.foldl (fun n c => n * 10 + (c.toNat - 48)) 0

/-- Skip the rest of a `//` line comment. -/
def dropLine : List Char → List Char
  | [] => []
  | c :: cs => if c = '\n' then cs else dropLine cs

/-- Punctuation tokens. -/
def punctTok (c : Char) : Option Tok :=
  if c = '(' then some .lparen
  else if c = ')' then some .rparen
  else if c = '\x7b' then some .lbrace
  else if c = '\x7d' then some .rbrace
  else if c = ';' then some .semi
  else none

/-- Fuel-indexed tokenizer; each step consumes at least one character, so
`length + 1` fuel always suffices. -/
def tokenizeAux : Nat → List Char → Option (List Tok)
  | 0, _ => none
  | _ + 1, [] => some []
  | fuel + 1, c :: cs =>
    if isJsWs c then tokenizeAux fuel cs
    else if c = '/' then
      match cs with
      | '/' :: rest => tokenizeAux fuel (dropLine rest)
      | _ => none
    else if isIdentStart c then
      let p := takeIdent (c :: cs)
      let w : String := ⟨p.1⟩
      let tok := if w = "function" then Tok.kwFunction
                 else if w = "return" then Tok.kwReturn
                 else Tok.ident w
      match tokenizeAux fuel p.2 with
      | some ts => some (tok :: ts)
      | none => none
    else if c.isDigit then
      let p := takeDigits (c :: cs)
      match tokenizeAux fuel p.2 with
      | some ts => some (Tok.num (digitsToNat p.1) :: ts)
      | none => none
    else
      match punctTok c with
      | some t =>
        match tokenizeAux fuel cs with
        | some ts => some (t :: ts)
        | none => none
      | none => none

/-- Tokenize a source string. -/
def tokenize (s : String) : Option (List Tok) :=
  tokenizeAux (s.data.length + 1) s.data

/-- Fuel-indexed statement-sequence parser.  Returns the parsed statements
and the unconsumed tokens (stopping before a closing brace). -/
def parseStmts : Nat → List Tok → Option (List JsStmt × List Tok)
  | 0, _ => none
  | _ + 1, [] => some ([], [])
  | _ + 1, Tok.rbrace :: rest => some ([], Tok.rbrace :: rest)
  | fuel + 1, Tok.kwReturn :: Tok.num n :: Tok.semi :: rest =>
    match parseStmts fuel rest with
    | some (ss, rem) => some (JsStmt.ret n :: ss, rem)
    | none => none
  | fuel + 1, Tok.kwFunction :: Tok.ident f :: Tok.lparen :: Tok.ident p ::
      Tok.rparen :: Tok.lbrace :: rest =>
    match parseStmts fuel rest with
    | some (body, Tok.rbrace :: rest2) =>
      match parseStmts fuel rest2 with
      | some (ss, rem) => some (JsStmt.fdecl f p body :: ss, rem)
      | none => none
    | _ => none
  | _ + 1, _ => none

/-- Parse a whole source string of the embedded fragment. -/
def parseProgram (s : String) : Option (List JsStmt) :=
  match tokenize s with
  | none => none
  | some toks =>
    match parseStmts (toks.length + 1) toks with
    | some (ss, []) => some ss
    | _ => none

/-- Execute a statement sequence as a function body: the value of the first
`return` that runs, `none` when control falls off the end (JS `undefined`).
Function declarations are hoisted bindings and do not execute. -/
def execBody : List JsStmt → Option Nat
  | [] => none
  | JsStmt.ret n :: _ => some n
  | JsStmt.fdecl _ _ _ :: rest => execBody rest

/-- The hoisted binding of a top-level function named `run`, if any
(later declarations shadow earlier ones, as in JS hoisting). -/
def declaredRun : List JsStmt → Option (String × List JsStmt)
  | [] => none
  | JsStmt.ret _ :: rest => declaredRun rest
  | JsStmt.fdecl f p b :: rest =>
    match declaredRun rest with
    | some r => some r
    | none => if f = "run" then some (p, b) else none

/-- The callable produced by `compileRunner`: either the extracted `run`
function of the module form, or the whole source wrapped as an async body. -/
inductive Runner where
  | moduleForm (param : String) (body : List JsStmt)
  | bareBody (prog : List JsStmt)
deriving Repr

/-- Result of `compileRunner`:  `errSyntax` models `new Function` throwing a
`SyntaxError`; `errNotFunction` models the explicit
`throw new Error("Script does not define a run(ctx) function.")` when the
factory returned a non-function; `errRunUnbound` models the strict-mode
`ReferenceError` of `return run` when no `run` binding exists. -/
inductive CompileResult where
  | ok (r : Runner)
  | errSyntax
  | errNotFunction
  | errRunUnbound
deriving Repr

/-- Module-form path of `compileRunner`
(`new Function('"use strict"; src; return run;')` then a function check):
the factory executes the source's top-level statements and then returns the
hoisted `run` binding. -/
def compileModuleForm (src : String) : CompileResult :=
  match parseProgram src with
  | none => CompileResult.errSyntax
  | some p =>
    match execBody p with
    | some _ => CompileResult.errNotFunction
    | none =>
      match declaredRun p with
      | some (prm, b) => CompileResult.ok (Runner.moduleForm prm b)
      | none => CompileResult.errRunUnbound

/-- Bare-body path of `compileRunner`
(`new Function("ctx", '"use strict"; return (async () => \x7b src \x7d)();')`). -/
def compileBareBody (src : String) : CompileResult :=
  match parseProgram src with
  | none => CompileResult.errSyntax
  | some p => CompileResult.ok (Runner.bareBody p)

/-- Model of `compileRunner` (`src/script-slots.js` lines 655-673): the
regex test alone selects which of the two wrapping strategies runs. -/
def compileRunner (src : String) : CompileResult :=
  if hasRunDecl src then compileModuleForm src else compileBareBody src

/-- Invoking the compiled callable and awaiting the result: the module form
runs the body of `run`, the bare form runs the wrapped source as a body.
`none` is JS `undefined`. -/
def invoke : Runner → Option Nat
  | Runner.moduleForm _ body => execBody body
  | Runner.bareBody p => execBody p

/-- Awaited result of invoking arbitrary slot code: the invocation either
completes normally or throws.  Used by the behaviour oracles that abstract
the JS engine on code outside the embedded fragment. -/
inductive ExecOutcome where
  | value
  | throws (e : String)
deriving Repr, DecidableEq

/-! Variant A: `src/script-slots.js` lines 1-125. -/

namespace VarA

/-- Slot record of variant A (`slots[name] = \x7b enabled, code \x7d`; the
`requireOwner` field is read at line 31 but never written by this variant's
UI, so it defaults to absent/false). -/
structure SlotA where
  enabled : Bool
  requireOwner : Bool := false
  code : String
deriving Repr, DecidableEq

/-- Actor as seen by the executing client: `game.actors.get(id)` plus the
`isOwner` property consulted at line 33. -/
structure ActorA where
  id : String
  isOwner : Bool
deriving Repr, DecidableEq

/-- The `ctx` argument of `run(name, ctx)`; only `ctx.actorId` is read by
the gate, and the whole bag is forwarded to the compiled function. -/
structure CtxA where
  actorId : Option String
deriving Repr, DecidableEq

/-- Behaviour of `new Function("ctx", '"use strict"; ' + code)` followed by
invocation: construction may throw a `SyntaxError`, otherwise calling the
function with `ctx` yields an `ExecOutcome`. -/
inductive BehaviorA where
  | syntaxError (e : String)
  | runs (f : CtxA → ExecOutcome)

/-- Result of a call to variant A's `run`:  `warnedNotFoundOrDisabled` is
the `ui.notifications.warn` return at line 29, `deniedSilently` the bare
`return` at line 33, `completed` a normal awaited return, and `propagated`
an exception escaping `run` to its caller (the function has no catch). -/
inductive OutcomeA where
  | warnedNotFoundOrDisabled
  | deniedSilently
  | completed
  | propagated (e : String)
deriving Repr, DecidableEq

/-- Model of `run(name, ctx)` (`src/script-slots.js` lines 26-38).  The
returned store component records the slot store as the call leaves it; this
code path contains no `game.settings.set`, which the pairing makes
explicit. -/
def run (slots : List (String × SlotA)) (isGM : Bool) (actors : List ActorA)
    (name : String) (ctx : CtxA) (behavior : String → BehaviorA) :
    OutcomeA × List (String × SlotA) :=
  match JsObj.lookupKV slots name with
  | none => (OutcomeA.warnedNotFoundOrDisabled, slots)
  | some slot =>
    if !slot.enabled then (OutcomeA.warnedNotFoundOrDisabled, slots)
    else
      let denied :=
        if !isGM && slot.requireOwner && ctx.actorId.isSome then
          match ctx.actorId with
          | some aid =>
            match actors.find? (fun a => a.id = aid) with
            | none => true
            | some a => !a.isOwner
          | none => false
        else false
      if denied then (OutcomeA.deniedSilently, slots)
      else
        match behavior slot.code with
        | BehaviorA.syntaxError e => (OutcomeA.propagated e, slots)
        | BehaviorA.runs f =>
          match f ctx with
          | ExecOutcome.value => (OutcomeA.completed, slots)
          | ExecOutcome.throws e => (OutcomeA.propagated e, slots)

/-- Model of `list()` (`src/script-slots.js` lines 22-24):
`Object.keys(...)` with no sorting. -/
def list (slots : List (String × SlotA)) : List String := JsObj.keysOf slots

end VarA

/-! Variant B: `src/script-slots.js` lines 126-613. -/

namespace VarB

/-- Slot record of variant B (array store of `\x7b name, code \x7d`). -/
structure EntryB where
  name : String
  code : String
deriving Repr, DecidableEq

/-- Model of `findScriptByName` (`src/script-slots.js` lines 149-152):
first record whose trimmed, lower-cased name equals the trimmed,
lower-cased query. -/
def findScriptByName (scripts : List EntryB) (name : String) : Option EntryB :=
  match scripts with
  | [] => none
  | s :: rest =>
    if ciKey s.name = ciKey name then some s else findScriptByName rest name

end VarB

/-! Variant C: `src/script-slots.js` lines 614-1081. -/

namespace VarC

/-- Slot record of variant C (array store of `\x7b name, enabled, code \x7d`). -/
structure SlotC where
  name : String
  enabled : Bool
  code : String
deriving Repr, DecidableEq

/-- User record: `game.users.get(id)` with the `isGM` property. -/
structure UserC where
  id : String
  isGM : Bool
deriving Repr, DecidableEq

/-- Actor record with the set of user ids holding OWNER permission. -/
structure ActorC where
  id : String
  owners : List String
deriving Repr, DecidableEq

/-- World state read by variant C: the slot store, the two world policy
settings, and the domain collections. `tokensOnScene` lists the actor ids
that have a token placeable on the current canvas scene. -/
structure WorldC where
  scripts : List SlotC
  requireOwner : Bool
  requireToken : Bool
  users : List UserC
  actors : List ActorC
  tokensOnScene : List String
deriving Repr, DecidableEq

/-- Model of `findSlot(slots, name)` (`src/script-slots.js` lines 650-653):
first record whose trimmed name equals the trimmed query (case-sensitive). -/
def findSlot (slots : List SlotC) (name : String) : Option SlotC :=
  match slots with
  | [] => none
  | s :: rest =>
    if normalizeName s.name = normalizeName name then some s
    else findSlot rest name

/-- Modelled from the spec: the domain collaborator
`actor.testUserPermission(user, OWNER)` — a GM identity holds every
permission, other identities hold OWNER exactly when listed. -/
def testUserPermission (u : UserC) (a : ActorC) : Bool :=
  u.isGM || a.owners.contains u.id

/-- The distinct throws of `validateRequest`. -/
inductive ValErr where
  | missingActorId
  | actorNotFound
  | userNotFound
  | notOwner
  | noToken
deriving Repr, DecidableEq

/-- Model of `validateRequest(\x7b args, requestedByUserId \x7d)`
(`src/script-slots.js` lines 709-735): `none` means the request passed. -/
def validateRequest (w : WorldC) (actorId : Option String) (uid : String) :
    Option ValErr :=
  if !w.requireOwner && !w.requireToken then none
  else
    match actorId with
    | none => some ValErr.missingActorId
    | some aid =>
      match w.actors.find? (fun a => a.id = aid) with
      | none => some ValErr.actorNotFound
      | some actor =>
        match w.users.find? (fun u => u.id = uid) with
        | none => some ValErr.userNotFound
        | some user =>
          if w.requireOwner && !testUserPermission user actor then
            some ValErr.notOwner
          else if w.requireToken && !w.tokensOnScene.contains aid then
            some ValErr.noToken
          else none

/-- Result of `runSlotAsGM` (`src/script-slots.js` lines 989-1000).  The
compile stage uses the deep-embedded `compileRunner`; `invoked` carries the
awaited value of the compiled callable. -/
inductive OutcomeC where
  | thrownNotFound
  | thrownDisabled
  | thrownValidate (e : ValErr)
  | thrownCompileSyntax
  | thrownNotFunction
  | thrownRunUnbound
  | invoked (v : Option Nat)
deriving Repr, DecidableEq

/-- Model of `runSlotAsGM(\x7b name, args, requestedByUserId \x7d)`
(`src/script-slots.js` lines 989-1000). -/
def runSlotAsGM (w : WorldC) (name : String) (actorId : Option String)
    (uid : String) : OutcomeC :=
  match findSlot w.scripts name with
  | none => OutcomeC.thrownNotFound
  | some slot =>
    if !slot.enabled then OutcomeC.thrownDisabled
    else
      match validateRequest w actorId uid with
      | some e => OutcomeC.thrownValidate e
      | none =>
        match compileRunner slot.code with
        | CompileResult.ok r => OutcomeC.invoked (invoke r)
        | CompileResult.errSyntax => OutcomeC.thrownCompileSyntax
        | CompileResult.errNotFunction => OutcomeC.thrownNotFunction
        | CompileResult.errRunUnbound => OutcomeC.thrownRunUnbound

/-- The socket message emitted by a non-GM caller
(`src/script-slots.js` lines 1049-1054). -/
structure SocketMsgC where
  op : String
  name : String
  actorId : Option String
  requestedByUserId : String
deriving Repr, DecidableEq

/-- Caller-visible result of `game.scriptsSlots.run`:  `thrownMissingName`
is the `throw new Error("Missing slot name")`; `gmResult` is the awaited
GM-path result; `emitted` means the message was published and the promise
resolved immediately with `true` (lines 1048-1059). -/
inductive ApiResult where
  | thrownMissingName
  | gmResult (o : OutcomeC)
  | emitted (msg : SocketMsgC)
deriving Repr, DecidableEq

/-- Model of the public `game.scriptsSlots.run(name, args)`
(`src/script-slots.js` lines 1038-1060). -/
def apiRun (w : WorldC) (userIsGM : Bool) (uid : String) (name : String)
    (actorId : Option String) : ApiResult :=
  let slotName := normalizeName name
  if slotName = "" then ApiResult.thrownMissingName
  else if userIsGM then ApiResult.gmResult (runSlotAsGM w slotName actorId uid)
  else
    ApiResult.emitted
      { op := "run", name := slotName, actorId := actorId,
        requestedByUserId := uid }

end VarC

/-! Variant D: `src/unnamed/part_000` lines 1-511. -/

namespace VarD

/-- Actor record with the user ids holding OWNER permission. -/
structure ActorD where
  id : String
  owners : List String
deriving Repr, DecidableEq

/-- User record: `isGM` plus the optionally assigned character actor
(`user.character`). -/
structure UserD where
  id : String
  isGM : Bool
  character : Option ActorD
deriving Repr, DecidableEq

/-- Slot record of variant D
(`\x7b enabled, playersCanRun, note, updatedAt, code \x7d`). -/
structure EntryD where
  enabled : Bool
  playersCanRun : Bool
  note : String
  updatedAt : Nat
  code : String
deriving Repr, DecidableEq

/-- The `args` bag of a request; `none` models a non-object `args` (the
`(args && typeof args === "object") ? args : \x7b\x7d` guard). -/
structure ArgsD where
  actorId : Option String
deriving Repr, DecidableEq

/-- World state read by variant D.  `controlledActor` is
`canvas.tokens.controlled[0]?.actor` on the executing client;
`tokensOnScene` lists actor ids that have a token placeable. -/
structure WorldD where
  scripts : List (String × EntryD)
  requireOwner : Bool
  requireToken : Bool
  users : List UserD
  actors : List ActorD
  tokensOnScene : List String
  controlledActor : Option ActorD
deriving Repr, DecidableEq

/-- Model of `game.users.get(userId)`. -/
def getUser (w : WorldD) (uid : String) : Option UserD :=
  w.users.find? (fun u => u.id = uid)

/-- Model of `getRequesterActor(\x7b actorId, user \x7d)`
(`src/unnamed/part_000` lines 42-51). -/
def getRequesterActor (w : WorldD) (actorId : Option String) (user : UserD) :
    Option ActorD :=
  match actorId with
  | some aid => w.actors.find? (fun a => a.id = aid)
  | none =>
    match user.character with
    | some a => some a
    | none => w.controlledActor

/-- Modelled from the spec: the domain collaborator
`actor.testUserPermission(requester, "OWNER")` — a GM identity holds every
permission, other identities hold OWNER exactly when listed. -/
def testUserPermission (u : UserD) (a : ActorD) : Bool :=
  u.isGM || a.owners.contains u.id

/-- Behaviour of the compile/run pipeline of `executeEntryAsGM` on a code
string: `compileError` models `compileScript` throwing, `initError` models
`runnerFactory(...)` throwing, `notAFunction` the `typeof runFn` check
failing, and `runsTo` the awaited invocation outcome. -/
inductive ScriptBehavior where
  | compileError (e : String)
  | initError (e : String)
  | notAFunction
  | runsTo (r : ExecOutcome)

/-- Result of `executeEntryAsGM` / the socket handler.  Every notification
exit of the source is a distinct constructor; `ignored` is the silent drop
of a malformed or foreign socket payload; `propagated` stands for an
exception escaping the function, which the fault boundary is meant to make
impossible (proved below, never constructed by the model because every
source path returns or catches). -/
inductive OutcomeD where
  | ignored
  | skippedNotGMClient
  | warnUnknown
  | warnDisabled
  | warnNoRequester
  | warnGMOnly
  | errNoActor
  | warnNotOwner
  | warnNoToken
  | errCompile
  | errInit
  | errNoRun
  | errRuntime
  | invoked
  | propagated (e : String)
deriving Repr, DecidableEq

/-- Model of `executeEntryAsGM(\x7b name, entry, args, userId \x7d)`
(`src/unnamed/part_000` lines 86-152).  Each exit pairs the outcome with
the slot store as the call leaves it; the source contains no `setScripts`
on this path, which the pairing makes explicit. -/
def executeEntryAsGM (w : WorldD) (behavior : String → ScriptBehavior)
    (execIsGM : Bool) (name : String) (entry : Option EntryD)
    (args : Option ArgsD) (userId : String) :
    OutcomeD × List (String × EntryD) :=
  if !execIsGM then (OutcomeD.skippedNotGMClient, w.scripts)
  else
    match entry with
    | none => (OutcomeD.warnUnknown, w.scripts)
    | some e =>
      if !e.enabled then (OutcomeD.warnDisabled, w.scripts)
      else
        match getUser w userId with
        | none => (OutcomeD.warnNoRequester, w.scripts)
        | some requester =>
          if !e.playersCanRun && !requester.isGM then
            (OutcomeD.warnGMOnly, w.scripts)
          else
            let safeArgs := args.getD { actorId := none }
            match getRequesterActor w safeArgs.actorId requester with
            | none => (OutcomeD.errNoActor, w.scripts)
            | some actor =>
              if w.requireOwner && !requester.isGM
                  && !testUserPermission requester actor then
                (OutcomeD.warnNotOwner, w.scripts)
              else
                let token := w.tokensOnScene.contains actor.id
                if w.requireToken && !token then
                  (OutcomeD.warnNoToken, w.scripts)
                else
                  match behavior e.code with
                  | ScriptBehavior.compileError _ => (OutcomeD.errCompile, w.scripts)
                  | ScriptBehavior.initError _ => (OutcomeD.errInit, w.scripts)
                  | ScriptBehavior.notAFunction => (OutcomeD.errNoRun, w.scripts)
                  | ScriptBehavior.runsTo ExecOutcome.value =>
                    (OutcomeD.invoked, w.scripts)
                  | ScriptBehavior.runsTo (ExecOutcome.throws _) =>
                    (OutcomeD.errRuntime, w.scripts)

/-- Model of `executeSlotAsGM(\x7b slotName, args, userId \x7d)`
(`src/unnamed/part_000` lines 154-159). -/
def executeSlotAsGM (w : WorldD) (behavior : String → ScriptBehavior)
    (execIsGM : Bool) (slotName : String) (args : Option ArgsD)
    (userId : String) : OutcomeD × List (String × EntryD) :=
  let name := normalizeName slotName
  executeEntryAsGM w behavior execIsGM name (JsObj.lookupKV w.scripts name)
    args userId

/-- A socket payload of the `SCRIPT_SLOTS_RUN` protocol. -/
structure PayloadD where
  ptype : String
  slotName : String
  args : Option ArgsD
  userId : String

/-- Model of the socket handler registered at
`src/unnamed/part_000` lines 493-498.  `senderId` is the transport-level
sender of the message; the Foundry socket API does not expose it to the
handler, so the model threads it only to state that the handler's result
cannot depend on it: authorization reads exactly the `userId` claimed in
the payload. -/
def socketHandler (w : WorldD) (behavior : String → ScriptBehavior)
    (execIsGM : Bool) (senderId : String) (payload : Option PayloadD) :
    OutcomeD × List (String × EntryD) :=
  match payload with
  | none => (OutcomeD.ignored, w.scripts)
  | some p =>
    if p.ptype ≠ "SCRIPT_SLOTS_RUN" then (OutcomeD.ignored, w.scripts)
    else executeSlotAsGM w behavior execIsGM p.slotName p.args p.userId

/-- Result of the `_onAdd` create callback. -/
inductive AddResult where
  | errNameRequired
  | errExists
  | added
deriving Repr, DecidableEq

/-- The template code installed by `_onAdd` for a fresh slot
(`src/unnamed/part_000` line 308). -/
def defaultTemplate : String :=
  "async function run(ctx) \x7b\n  // ctx.actor, ctx.args, ctx.user, ctx.token\n  await ctx.chat(`<p>ran</p>`);\n\x7d\n"

/-- Model of the `_onAdd` create callback (`src/unnamed/part_000` lines
296-313): trim the name, reject an empty name, reject an exact key hit
(`if (scripts[name])`), else store a fresh record under the trimmed name. -/
def onAdd (scripts : List (String × EntryD)) (rawName : String)
    (enabled players : Bool) (now : Nat) :
    AddResult × List (String × EntryD) :=
  let name := normalizeName rawName
  if isNonEmptyString name then
    if (JsObj.lookupKV scripts name).isSome then (AddResult.errExists, scripts)
    else
      (AddResult.added,
        scripts ++ [(name,
          { enabled := enabled, playersCanRun := players, note := "",
            updatedAt := now, code := defaultTemplate })])
  else (AddResult.errNameRequired, scripts)

/-- Model of `game.scriptSlots.list` (`src/unnamed/part_000` line 489):
`Object.keys(getScripts()).sort()` — default (code-unit) comparator. -/
def list (scripts : List (String × EntryD)) : List String :=
  jsSort (JsObj.keysOf scripts)

/-- JSON values, the shape produced by `JSON.parse` of an import text and
consumed by `JSON.stringify` on export.  Arrays do not occur in variant D's
export shape and are omitted. -/
inductive JVal where
  | jnull
  | jbool (b : Bool)
  | jnum (n : Nat)
  | jstr (s : String)
  | jobj (fields : List (String × JVal))
deriving Repr

/-- Field read `fields[k]` on a parsed JSON object. -/
def jGet (fields : List (String × JVal)) (k : String) : Option JVal :=
  match fields with
  | [] => none
  | f :: rest => if f.1 = k then some f.2 else jGet rest k

/-- JS truthiness coercion `!!x` of a possibly absent JSON value. -/
def truthy : Option JVal → Bool
  | none => false
  | some JVal.jnull => false
  | some (JVal.jbool b) => b
  | some (JVal.jnum n) => !(n = 0)
  | some (JVal.jstr s) => !(s = "")
  | some (JVal.jobj _) => true

/-- JS string coercion `String(x ?? "")` of a possibly absent JSON value. -/
def jsString : Option JVal → String
  | none => ""
  | some JVal.jnull => ""
  | some (JVal.jbool b) => if b then "true" else "false"
  | some (JVal.jnum n) => toString n
  | some (JVal.jstr s) => s
  | some (JVal.jobj _) => "[object Object]"

/-- The JSON fields `JSON.stringify` emits for one slot record. -/
def encFields (e : EntryD) : List (String × JVal) :=
  [("enabled", JVal.jbool e.enabled),
   ("playersCanRun", JVal.jbool e.playersCanRun),
   ("note", JVal.jstr e.note),
   ("updatedAt", JVal.jnum e.updatedAt),
   ("code", JVal.jstr e.code)]

/-- JSON encoding of one slot record. -/
def encodeEntry (e : EntryD) : JVal := JVal.jobj (encFields e)

/-- Model of `_onExport` (`src/unnamed/part_000` lines 411-418):
`JSON.stringify(scripts)` — the whole store as one JSON object, read-only. -/
def onExport (scripts : List (String × EntryD)) : JVal :=
  JVal.jobj (scripts.map (fun kv => (kv.1, encodeEntry kv.2)))

/-- The record `_onImport` builds from one parsed JSON entry
(`src/unnamed/part_000` lines 438-444). -/
def decodeFields (fields : List (String × JVal)) (now : Nat) : EntryD :=
  { enabled := truthy (jGet fields "enabled"),
    playersCanRun := truthy (jGet fields "playersCanRun"),
    note := jsString (jGet fields "note"),
    updatedAt := now,
    code := jsString (jGet fields "code") }

/-- The `for (const [k, v] of Object.entries(parsed))` loop of `_onImport`:
entries with an empty trimmed key or a non-object value are skipped; a
`null` value passes the `typeof` test and then crashes the handler on field
access (returned as `none`). -/
def importLoop (now : Nat) :
    List (String × JVal) → List (String × EntryD) →
    Option (List (String × EntryD))
  | [], st => some st
  | (k, v) :: rest, st =>
    if isNonEmptyString k then
      match v with
      | JVal.jobj fields =>
        importLoop now rest
          (JsObj.objSet st (normalizeName k) (decodeFields fields now))
      | JVal.jnull => none
      | _ => importLoop now rest st
    else importLoop now rest st

/-- Result of `_onImport`:  `invalid` is the
`"Script Slots: invalid import."` notification for a non-object parse;
`typeError` an exception escaping the handler; `done` the merged store
passed to `setScripts`. -/
inductive ImportResult where
  | invalid
  | typeError
  | done (st : List (String × EntryD))

/-- Model of `_onImport` (`src/unnamed/part_000` lines 420-451) applied to
an already parsed JSON value: merge the parsed entries into the current
store. -/
def onImport (parsed : JVal) (scripts : List (String × EntryD)) (now : Nat) :
    ImportResult :=
  match parsed with
  | JVal.jobj entries =>
    match importLoop now entries scripts with
    | some st => ImportResult.done st
    | none => ImportResult.typeError
  | _ => ImportResult.invalid

/-- One import step as a store update, used to state the loop lemmas. -/
def bump (now : Nat) (e : EntryD) : EntryD :=
  { e with updatedAt := now }

/-- The accumulated effect of importing the export of `todo` into `st`. -/
def upd (now : Nat) (todo st : List (String × EntryD)) :
    List (String × EntryD) :=
  todo.foldl (fun s kv => JsObj.objSet s kv.1 (bump now kv.2)) st

end VarD

/-! Variant E: `src/unnamed/part_000` lines 512-945. -/

namespace VarE

/-- Slot record of variant E (`\x7b enabled, note, code, updatedAt \x7d`). -/
structure EntryE where
  enabled : Bool
  note : String
  code : String
  updatedAt : Nat
deriving Repr, DecidableEq

/-- User record. -/
structure UserE where
  id : String
  isGM : Bool
deriving Repr, DecidableEq

/-- Actor record with the user ids holding OWNER permission. -/
structure ActorE where
  id : String
  owners : List String
deriving Repr, DecidableEq

/-- World state read by variant E. -/
structure WorldE where
  scripts : List (String × EntryE)
  requireOwner : Bool
  requireToken : Bool
  users : List UserE
  actors : List ActorE
  tokensOnScene : List String
deriving Repr, DecidableEq

/-- Modelled from the spec: the domain collaborator
`actor.testUserPermission(user, OWNER)` — a GM identity holds every
permission, other identities hold OWNER exactly when listed. -/
def testUserPermission (u : UserE) (a : ActorE) : Bool :=
  u.isGM || a.owners.contains u.id

/-- Model of `userCanRequestActor(user, actor)`
(`src/unnamed/part_000` lines 575-583). -/
def userCanRequestActor (w : WorldE) (u : UserE) (a : Option ActorE) : Bool :=
  match a with
  | none => false
  | some actor => if !w.requireOwner then true else testUserPermission u actor

/-- Model of `actorHasTokenOnScene(actor)`
(`src/unnamed/part_000` lines 585-588). -/
def actorHasTokenOnScene (w : WorldE) (a : Option ActorE) : Bool :=
  match a with
  | none => false
  | some actor => w.tokensOnScene.contains actor.id

/-- Behaviour of `compileSlot` plus invocation on a code string:
`new Function(wrapped)()` may throw a `SyntaxError` at construction,
otherwise awaiting the returned async `run` yields an `ExecOutcome`. -/
inductive BehaviorE where
  | syntaxError (e : String)
  | runsTo (r : ExecOutcome)

/-- Result of `runSlotAsGM`: every `throw` of the source is a distinct
constructor (this function has no catch; its callers catch). -/
inductive OutcomeE where
  | thrownNoSuchSlot
  | thrownDisabled
  | thrownNotOwner
  | thrownNoToken
  | thrownSyntax (e : String)
  | thrownRuntime (e : String)
  | invoked
deriving Repr, DecidableEq

/-- Model of `runSlotAsGM(\x7b name, actorId, requestedBy \x7d)`
(`src/unnamed/part_000` lines 851-878). -/
def runSlotAsGM (w : WorldE) (behavior : String → BehaviorE) (name : String)
    (actorId : Option String) (requestedBy : Option String) : OutcomeE :=
  let name := normalizeName name
  match JsObj.lookupKV w.scripts name with
  | none => OutcomeE.thrownNoSuchSlot
  | some entry =>
    if !entry.enabled then OutcomeE.thrownDisabled
    else
      let actor : Option ActorE :=
        actorId.bind (fun aid => w.actors.find? (fun a => a.id = aid))
      let user : Option UserE :=
        requestedBy.bind (fun uid => w.users.find? (fun u => u.id = uid))
      let ownDeny :=
        match user, actor with
        | some u, some a => !userCanRequestActor w u (some a)
        | _, _ => false
      if ownDeny then OutcomeE.thrownNotOwner
      else if w.requireToken && actor.isSome && !actorHasTokenOnScene w actor then
        OutcomeE.thrownNoToken
      else
        match behavior entry.code with
        | BehaviorE.syntaxError e => OutcomeE.thrownSyntax e
        | BehaviorE.runsTo ExecOutcome.value => OutcomeE.invoked
        | BehaviorE.runsTo (ExecOutcome.throws e) => OutcomeE.thrownRuntime e

end VarE

/-! Concrete scenario data used by the theorems below. -/

/-- Oracle: the slot code compiles and its invocation completes normally. -/
def behValueD : String → VarD.ScriptBehavior :=
  fun _ => VarD.ScriptBehavior.runsTo ExecOutcome.value

/-- Oracle: the slot code compiles and its invocation throws `"boom"`. -/
def behThrowD : String → VarD.ScriptBehavior :=
  fun _ => VarD.ScriptBehavior.runsTo (ExecOutcome.throws "boom")

/-- Oracle: the slot code compiles and its invocation completes normally. -/
def behValueE : String → VarE.BehaviorE :=
  fun _ => VarE.BehaviorE.runsTo ExecOutcome.value

/-- Oracle: the slot code compiles and its invocation completes normally. -/
def behValueA : String → VarA.BehaviorA :=
  fun _ => VarA.BehaviorA.runs (fun _ => ExecOutcome.value)

/-- Oracle: the slot code compiles and its invocation throws `"boom"`. -/
def behThrowA : String → VarA.BehaviorA :=
  fun _ => VarA.BehaviorA.runs (fun _ => ExecOutcome.throws "boom")

/-- A GM user of the variant D world. -/
def gmUserD : VarD.UserD := { id := "gm1", isGM := true, character := none }

/-- A non-GM user of the variant D world. -/
def playerUserD : VarD.UserD := { id := "p1", isGM := false, character := none }

/-- An actor owned by nobody. -/
def actorD1 : VarD.ActorD := { id := "a1", owners := [] }

/-- An enabled slot that players may not run. -/
def entrySpoof : VarD.EntryD :=
  { enabled := true, playersCanRun := false, note := "", updatedAt := 0,
    code := "return 1;" }

/-- World for the payload-spoofing scenario: ownership required, the slot is
GM-only, and the only users are one GM and one player who owns nothing. -/
def worldSpoof : VarD.WorldD :=
  { scripts := [("boom", entrySpoof)], requireOwner := true,
    requireToken := false, users := [gmUserD, playerUserD],
    actors := [actorD1], tokensOnScene := [], controlledActor := none }

/-- A socket payload whose claimed `userId` is the GM's id. -/
def spoofPayload : VarD.PayloadD :=
  { ptype := "SCRIPT_SLOTS_RUN", slotName := "boom",
    args := some { actorId := some "a1" }, userId := "gm1" }

/-- A disabled slot. -/
def entryDisabled : VarD.EntryD :=
  { enabled := false, playersCanRun := true, note := "", updatedAt := 0,
    code := "return 1;" }

/-- World holding only the disabled slot, with every policy off. -/
def worldDisabled : VarD.WorldD :=
  { scripts := [("boom", entryDisabled)], requireOwner := false,
    requireToken := false, users := [gmUserD], actors := [],
    tokensOnScene := [], controlledActor := none }

/-- A GM user of the variant C world. -/
def gmUserC : VarC.UserC := { id := "gm1", isGM := true }

/-- An enabled variant C slot whose code is the bare body `return 42;`. -/
def slotC1 : VarC.SlotC := { name := "s", enabled := true, code := "return 42;" }

/-- Variant C world with ownership required and a GM user. -/
def worldCgm : VarC.WorldC :=
  { scripts := [slotC1], requireOwner := true, requireToken := false,
    users := [gmUserC], actors := [], tokensOnScene := [] }

/-- An enabled variant E slot. -/
def entryE1 : VarE.EntryE :=
  { enabled := true, note := "", code := "return 1;", updatedAt := 0 }

/-- A non-GM user of the variant E world. -/
def userE1 : VarE.UserE := { id := "p1", isGM := false }

/-- Variant E world with ownership required, one enabled slot and one
player who owns no actor. -/
def worldE1 : VarE.WorldE :=
  { scripts := [("sin", entryE1)], requireOwner := true, requireToken := false,
    users := [userE1], actors := [], tokensOnScene := [] }

/-- An enabled variant A slot with the per-slot ownership flag set. -/
def slotA1 : VarA.SlotA :=
  { enabled := true, requireOwner := true, code := "x" }

/-- An enabled variant A slot whose code throws when invoked. -/
def slotAThrow : VarA.SlotA :=
  { enabled := true, requireOwner := false, code := "boom()" }

/-- An enabled player-runnable variant D slot whose code throws. -/
def entryDThrow : VarD.EntryD :=
  { enabled := true, playersCanRun := true, note := "", updatedAt := 0,
    code := "boom()" }

/-- World where every gate passes for `playerUserD` requesting `entryDThrow`
with `actorId = "a1"` (no policy enabled). -/
def worldDThrow : VarD.WorldD :=
  { scripts := [("s", entryDThrow)], requireOwner := false,
    requireToken := false, users := [playerUserD], actors := [actorD1],
    tokensOnScene := [], controlledActor := none }

/-- A plain enabled slot record. -/
def entryPlain : VarD.EntryD :=
  { enabled := true, playersCanRun := true, note := "", updatedAt := 0,
    code := "" }

/-- A second distinct slot record. -/
def entrySeven : VarD.EntryD :=
  { enabled := false, playersCanRun := false, note := "n", updatedAt := 3,
    code := "return 7;" }

/-- The module-form claim source: `function run(ctx) { return 42; }`. -/
def srcModule : String := "function run(ctx) \x7b return 42; \x7d"

/-- The bare-body claim source: `return 42;`. -/
def srcBody : String := "return 42;"

/-- A source whose only occurrence of `function run(` is inside a line
comment. -/
def srcTrick : String := "return 7; // function run(ctx)"

/-! Theorems. -/

/-- C1: code evaluation at the failing input — with `requireActorOwner`
enabled and a request carrying no `actorId`, a non-privileged request is not
denied with a missing-target error: both cited implementations skip the
ownership gate entirely and invoke the slot's code (a silent success). -/
theorem c1_code_invokes_without_target :
    worldE1.requireOwner = true
    ∧ userE1.isGM = false
    ∧ VarE.runSlotAsGM worldE1 behValueE "sin" none (some "p1")
        = VarE.OutcomeE.invoked
    ∧ (VarA.run [("sin", slotA1)] false [] "sin" { actorId := none }
        behValueA).1 = VarA.OutcomeA.completed :=
  ⟨rfl, rfl, rfl, rfl⟩

/-- C3: the socket handler authorizes against the `userId` claimed in the
payload, not the transport-level sender: its result is independent of the
sender, and a payload claiming the GM's id — here handled while a
non-privileged client is the sender — passes the players-can-run and
ownership checks exactly as a GM request would and reaches invocation. -/
theorem c3_payload_identity_spoofable :
    (∀ (w : VarD.WorldD) (b : String → VarD.ScriptBehavior) (g : Bool)
        (s₁ s₂ : String) (p : Option VarD.PayloadD),
        VarD.socketHandler w b g s₁ p = VarD.socketHandler w b g s₂ p)
    ∧ spoofPayload.userId = gmUserD.id
    ∧ gmUserD.isGM = true
    ∧ playerUserD.isGM = false
    ∧ entrySpoof.playersCanRun = false
    ∧ worldSpoof.requireOwner = true
    ∧ (VarD.socketHandler worldSpoof behValueD true playerUserD.id
        (some spoofPayload)).1 = VarD.OutcomeD.invoked
    ∧ VarD.socketHandler worldSpoof behValueD true playerUserD.id
        (some spoofPayload)
      = VarD.socketHandler worldSpoof behValueD true gmUserD.id
        (some spoofPayload) :=
  ⟨fun _ _ _ _ _ _ => rfl, rfl, rfl, rfl, rfl, rfl, rfl, rfl⟩

/-- C4: compiling the module-form source `function run(ctx) { return 42; }`
and invoking the resulting callable yields 42, and compiling the bare-body
source `return 42;` and invoking it also yields 42. -/
theorem c4_both_conventions_yield_42 :
    (∃ r, compileRunner srcModule = CompileResult.ok r ∧ invoke r = some 42)
    ∧ (∃ r, compileRunner srcBody = CompileResult.ok r ∧ invoke r = some 42) :=
  ⟨⟨Runner.moduleForm "ctx" [JsStmt.ret 42], rfl, rfl⟩,
   ⟨Runner.bareBody [JsStmt.ret 42], rfl, rfl⟩⟩

/-- C10: the choice between module form and bare-body form is decided solely
by the `function run(` regex test (optionally preceded by `async`) on the
raw source text, and for a source whose only occurrence of the pattern sits
inside a line comment the compiler takes the module-form path even though
the source declares no top-level `run` function. -/
theorem c10_regex_decides_form :
    (∀ src, hasRunDecl src = true → compileRunner src = compileModuleForm src)
    ∧ (∀ src, hasRunDecl src = false → compileRunner src = compileBareBody src)
    ∧ hasRunDecl srcTrick = true
    ∧ compileRunner srcTrick = CompileResult.errNotFunction
    ∧ (∃ p, parseProgram srcTrick = some p ∧ declaredRun p = none) := by
  refine ⟨fun src h => by simp [compileRunner, h],
          fun src h => by simp [compileRunner, h],
          rfl, rfl, ⟨[JsStmt.ret 7], rfl, rfl⟩⟩

/-- Witness for C10: the comment-trick source takes the module-form path. -/
theorem c10_regex_decides_form_witness :
    compileRunner srcTrick = compileModuleForm srcTrick :=
  c10_regex_decides_form.1 srcTrick (by rfl)

/-- C8: a run request by a non-privileged caller resolves immediately upon
publishing the socket message, with a caller-visible result that does not
depend on the world — hence not on whether the later GM-side execution
succeeds, fails, or is denied — and that never carries execution output or
a denial. -/
theorem c8_fire_and_forget :
    (∀ (w : VarC.WorldC) (uid name : String) (actorId : Option String),
        normalizeName name ≠ "" →
        VarC.apiRun w false uid name actorId
          = VarC.ApiResult.emitted
              { op := "run", name := normalizeName name, actorId := actorId,
                requestedByUserId := uid })
    ∧ (∀ (w w' : VarC.WorldC) (uid name : String) (actorId : Option String),
        VarC.apiRun w false uid name actorId
          = VarC.apiRun w' false uid name actorId) := by
  constructor
  · intro w uid name actorId h
    simp [VarC.apiRun, h]
  · intro w w' uid name actorId
    rfl

/-- Witness for C8: a concrete non-GM call emits the message and resolves. -/
theorem c8_fire_and_forget_witness :
    VarC.apiRun worldCgm false "p1" "Boom" none
      = VarC.ApiResult.emitted
          { op := "run", name := normalizeName "Boom", actorId := none,
            requestedByUserId := "p1" } :=
  c8_fire_and_forget.1 worldCgm "p1" "Boom" none (by decide)

/-- C2 counterexample: the privileged requester does not bypass every gate —
a disabled slot denies a GM requester in `executeEntryAsGM`, and with
`requireActorOwner` set a GM request without `actorId` fails
`validateRequest` inside variant C's `runSlotAsGM`. -/
theorem c2_counterexample_privileged_denied :
    gmUserD.isGM = true
    ∧ (VarD.executeEntryAsGM worldDisabled behValueD true "boom"
        (some entryDisabled) (some { actorId := none }) "gm1").1
      = VarD.OutcomeD.warnDisabled
    ∧ gmUserC.isGM = true
    ∧ VarC.runSlotAsGM worldCgm "s" none "gm1"
      = VarC.OutcomeC.thrownValidate VarC.ValErr.missingActorId :=
  ⟨rfl, rfl, rfl, rfl⟩

/-- C5 counterexample: `_onAdd` deduplicates by exact lookup on the trimmed
name only, so adding `"foo"` after `"Foo"` succeeds and the store ends up
holding two distinct records whose names differ only in letter case. -/
theorem c5_counterexample_case_duplicate :
    (VarD.onAdd [] "Foo" true true 0).1 = VarD.AddResult.added
    ∧ (VarD.onAdd (VarD.onAdd [] "Foo" true true 0).2 "foo" true true 1).1
      = VarD.AddResult.added
    ∧ JsObj.keysOf
        (VarD.onAdd (VarD.onAdd [] "Foo" true true 0).2 "foo" true true 1).2
      = ["Foo", "foo"]
    ∧ ciKey "Foo" = ciKey "foo"
    ∧ "Foo" ≠ "foo" :=
  ⟨rfl, rfl, rfl, rfl, by decide⟩

/-- C6 counterexample: a slot whose compiled code throws during invocation
via the `run` entry point of `src/script-slots.js` lines 26-38 is not caught
at that layer: the exception propagates to `run`'s caller instead of being
surfaced as an error notification (the store is nevertheless unchanged). -/
theorem c6_counterexample_throw_propagates :
    VarA.run [("s", slotAThrow)] true [] "s" { actorId := none } behThrowA
      = (VarA.OutcomeA.propagated "boom", [("s", slotAThrow)]) :=
  rfl

/-- C9 counterexample: `list()` sorts with the default code-unit comparator,
so for a store with names `"a"` and `"B"` it returns `["B", "a"]`, which is
not in case-insensitive lexicographic order (that order is `["a", "B"]`). -/
theorem c9_counterexample_not_ci_sorted :
    VarD.list [("a", entryPlain), ("B", entryPlain)] = ["B", "a"]
    ∧ sortedBy ciLe ["B", "a"] = false
    ∧ sortedBy ciLe ["a", "B"] = true :=
  ⟨rfl, rfl, rfl⟩

/-- Totality of the code-unit comparison. -/
theorem chListLe_total : ∀ as bs : List Char,
    chListLe as bs = true ∨ chListLe bs as = true := by
  intro as
  induction as with
  | nil => intro bs; exact Or.inl rfl
  | cons a as ih =>
    intro bs
    cases bs with
    | nil => exact Or.inr rfl
    | cons b bs =>
      by_cases h1 : a.toNat < b.toNat
      · exact Or.inl (by simp [chListLe, h1])
      · by_cases h2 : b.toNat < a.toNat
        · exact Or.inr (by simp [chListLe, h2])
        · rcases ih bs with h | h
          · exact Or.inl (by simp [chListLe, h1, h2, h])
          · exact Or.inr (by simp [chListLe, h1, h2, h])

/-- Totality of the JS default string order. -/
theorem strLe_total (a b : String) : strLe a b = true ∨ strLe b a = true :=
  chListLe_total a.data b.data

/-- Inserting keeps the elements: `jsInsert x l` is a permutation of
`x :: l`. -/
theorem jsInsert_perm (x : String) :
    ∀ l : List String, List.Perm (jsInsert x l) (x :: l) := by
  intro l
  induction l with
  | nil => exact List.Perm.refl _
  | cons y ys ih =>
    by_cases h : strLe x y = true
    · simp only [jsInsert, if_pos h]
      exact List.Perm.refl _
    · simp only [jsInsert, if_neg h]
      exact (ih.cons y).trans (List.Perm.swap x y ys)

/-- The model of `Array.prototype.sort()` permutes its input. -/
theorem jsSort_perm : ∀ l : List String, List.Perm (jsSort l) l := by
  intro l
  induction l with
  | nil => exact List.Perm.refl _
  | cons x xs ih => exact (jsInsert_perm x (jsSort xs)).trans (ih.cons x)

/-- Insertion preserves sortedness under `strLe`. -/
theorem sortedBy_jsInsert (x : String) :
    ∀ l, sortedBy strLe l = true → sortedBy strLe (jsInsert x l) = true := by
  intro l
  induction l with
  | nil => intro _; rfl
  | cons y ys ih =>
    intro h
    by_cases hxy : strLe x y = true
    · simp only [jsInsert, if_pos hxy]
      simp [sortedBy, hxy, h]
    · have hyx : strLe y x = true := (strLe_total x y).resolve_left hxy
      simp only [jsInsert, if_neg hxy]
      cases ys with
      | nil => simp [jsInsert, sortedBy, hyx]
      | cons z zs =>
        have hz : strLe y z = true ∧ sortedBy strLe (z :: zs) = true := by
          simpa [sortedBy] using h
        have ihz := ih hz.2
        by_cases hxz : strLe x z = true
        · simp only [jsInsert, if_pos hxz] at ihz ⊢
          simp [sortedBy, hyx, hxz, hz.2]
        · simp only [jsInsert, if_neg hxz] at ihz ⊢
          simp [sortedBy, hz.1]
          simpa [sortedBy] using ihz

/-- The model of `Array.prototype.sort()` yields a `strLe`-sorted list. -/
theorem jsSort_sorted : ∀ l, sortedBy strLe (jsSort l) = true := by
  intro l
  induction l with
  | nil => rfl
  | cons x xs ih => exact sortedBy_jsInsert x (jsSort xs) ih

/-- C9 amended: `list()` returns the stored slot names sorted in
case-sensitive code-unit lexicographic order (the default JS sort), a
permutation of the stored names — not in case-insensitive order; the
variant A `list` returns the keys unsorted in storage order. -/
theorem c9_amended_code_unit_order :
    (∀ scripts : List (String × VarD.EntryD),
        sortedBy strLe (VarD.list scripts) = true)
    ∧ (∀ scripts : List (String × VarD.EntryD),
        List.Perm (VarD.list scripts) (JsObj.keysOf scripts))
    ∧ (∀ slots : List (String × VarA.SlotA),
        VarA.list slots = JsObj.keysOf slots) :=
  ⟨fun _ => jsSort_sorted _, fun _ => jsSort_perm _, fun _ => rfl⟩

/-- C5 amended: the store treats names equal after trimming as the same
identity — `_onAdd` rejects an add whose trimmed name is already a key —
and `findScriptByName` resolves names case-insensitively and
whitespace-insensitively; but names differing in letter case are distinct
identities to `_onAdd`, which deduplicates by exact lookup on the trimmed
name. -/
theorem c5_amended_trim_identity :
    (∀ (scripts : List (String × VarD.EntryD)) (n : String) (e p : Bool)
        (now : Nat),
        isNonEmptyString (normalizeName n) = true →
        (JsObj.lookupKV scripts (normalizeName n)).isSome = true →
        VarD.onAdd scripts n e p now = (VarD.AddResult.errExists, scripts))
    ∧ (∀ (scripts : List VarB.EntryB) (n₁ n₂ : String),
        ciKey n₁ = ciKey n₂ →
        VarB.findScriptByName scripts n₁ = VarB.findScriptByName scripts n₂) := by
  constructor
  · intro scripts n e p now h1 h2
    simp [VarD.onAdd, h1, h2]
  · intro scripts n1 n2 h
    induction scripts with
    | nil => rfl
    | cons s rest ih => simp [VarB.findScriptByName, h, ih]

/-- Witness for C5 amended: adding `" Foo "` when `"Foo"` exists is
rejected as a duplicate and the store is unchanged. -/
theorem c5_amended_trim_identity_witness :
    VarD.onAdd [("Foo", entryPlain)] " Foo " true true 5
      = (VarD.AddResult.errExists, [("Foo", entryPlain)]) :=
  c5_amended_trim_identity.1 [("Foo", entryPlain)] " Foo " true true 5
    (by decide) (by decide)

/-- C2 amended: a privileged (GM) requesting identity bypasses exactly the
players-can-run and ownership checks of `executeEntryAsGM` — those two
denials are impossible for a GM requester — while the slot-existence,
slot-disabled, requester-resolution, actor-resolution and token-presence
checks still apply to it. -/
theorem c2_amended_privileged_bypass (w : VarD.WorldD)
    (b : String → VarD.ScriptBehavior) (g : Bool) (name : String)
    (entry : Option VarD.EntryD) (args : Option VarD.ArgsD) (uid : String)
    (u : VarD.UserD) (hu : VarD.getUser w uid = some u)
    (hgm : u.isGM = true) :
    (VarD.executeEntryAsGM w b g name entry args uid).1
        ≠ VarD.OutcomeD.warnGMOnly
    ∧ (VarD.executeEntryAsGM w b g name entry args uid).1
        ≠ VarD.OutcomeD.warnNotOwner := by
  constructor <;>
  · simp only [VarD.executeEntryAsGM, hu, hgm]
    repeat' split
    all_goals first
      | rfl
      | (simp; done)
      | (simp_all; done)

/-- Witness for C2 amended: the concrete GM request of the spoof world. -/
theorem c2_amended_privileged_bypass_witness :
    (VarD.executeEntryAsGM worldSpoof behValueD true "boom" (some entrySpoof)
        (some { actorId := some "a1" }) "gm1").1 ≠ VarD.OutcomeD.warnGMOnly
    ∧ (VarD.executeEntryAsGM worldSpoof behValueD true "boom" (some entrySpoof)
        (some { actorId := some "a1" }) "gm1").1 ≠ VarD.OutcomeD.warnNotOwner :=
  c2_amended_privileged_bypass worldSpoof behValueD true "boom"
    (some entrySpoof) (some { actorId := some "a1" }) "gm1" gmUserD
    (by rfl) rfl

/-- C6 amended: a script that throws during invocation inside
`executeEntryAsGM` is caught there and surfaced as the runtime-error
notification, no exception ever escapes that function, and neither layer
writes the slot store; the `run` entry point of `src/script-slots.js`
lines 26-38 instead propagates the exception to its caller, but it too
leaves the store unchanged. -/
theorem c6_amended_fault_isolation :
    (∀ (w : VarD.WorldD) (b : String → VarD.ScriptBehavior) (g : Bool)
        (n : String) (ent : Option VarD.EntryD) (a : Option VarD.ArgsD)
        (u e' : String),
        (VarD.executeEntryAsGM w b g n ent a u).1
          ≠ VarD.OutcomeD.propagated e')
    ∧ (∀ (w : VarD.WorldD) (b : String → VarD.ScriptBehavior) (g : Bool)
        (n : String) (ent : Option VarD.EntryD) (a : Option VarD.ArgsD)
        (u : String),
        (VarD.executeEntryAsGM w b g n ent a u).2 = w.scripts)
    ∧ (VarD.executeEntryAsGM worldDThrow behThrowD true "s"
        (some entryDThrow) (some { actorId := some "a1" }) "p1").1
      = VarD.OutcomeD.errRuntime
    ∧ (∀ (slots : List (String × VarA.SlotA)) (g : Bool)
        (actors : List VarA.ActorA) (n : String) (ctx : VarA.CtxA)
        (bA : String → VarA.BehaviorA),
        (VarA.run slots g actors n ctx bA).2 = slots) := by
  refine ⟨?_, ?_, rfl, ?_⟩
  · intro w b g n ent a u e'
    simp only [VarD.executeEntryAsGM]
    repeat' split
    all_goals first
      | rfl
      | (simp; done)
      | (simp_all; done)
  · intro w b g n ent a u
    simp only [VarD.executeEntryAsGM]
    repeat' split
    all_goals rfl
  · intro slots g actors n ctx bA
    simp only [VarA.run]
    repeat' split
    all_goals rfl

/-- Reading back the key just written. -/
theorem JsObj.lookup_objSet_self {α : Type} :
    ∀ (st : List (String × α)) (k : String) (e : α),
      JsObj.lookupKV (JsObj.objSet st k e) k = some e := by
  intro st
  induction st with
  | nil => intro k e; simp [JsObj.objSet, JsObj.lookupKV]
  | cons kv rest ih =>
    intro k e
    by_cases h : kv.1 = k
    · simp [JsObj.objSet, JsObj.lookupKV, h]
    · simp [JsObj.objSet, JsObj.lookupKV, h, ih]

/-- Writing one key does not disturb reads of another. -/
theorem JsObj.lookup_objSet_ne {α : Type} :
    ∀ (st : List (String × α)) (k k' : String) (e : α), k' ≠ k →
      JsObj.lookupKV (JsObj.objSet st k e) k' = JsObj.lookupKV st k' := by
  intro st
  induction st with
  | nil => intro k k' e h; simp [JsObj.objSet, JsObj.lookupKV, Ne.symm h]
  | cons kv rest ih =>
    intro k k' e h
    by_cases h1 : kv.1 = k
    · simp [JsObj.objSet, JsObj.lookupKV, h1, Ne.symm h]
    · simp [JsObj.objSet, JsObj.lookupKV, h1, ih _ _ _ h]

/-- Writing an existing key keeps `Object.keys` unchanged. -/
theorem JsObj.keysOf_objSet_mem {α : Type} :
    ∀ (st : List (String × α)) (k : String) (e : α),
      k ∈ JsObj.keysOf st →
      JsObj.keysOf (JsObj.objSet st k e) = JsObj.keysOf st := by
  intro st
  induction st with
  | nil => intro k e h; simp [JsObj.keysOf] at h
  | cons kv rest ih =>
    intro k e h
    by_cases h1 : kv.1 = k
    · simp [JsObj.objSet, JsObj.keysOf, h1]
    · have h2 : k ∈ JsObj.keysOf rest := by
        simp [JsObj.keysOf] at h
        rcases h with h | h
        · exact absurd h.symm h1
        · simpa [JsObj.keysOf] using h
      simp [JsObj.objSet, JsObj.keysOf, h1]
      simpa [JsObj.keysOf] using ih _ e h2

/-- A failed read means the key is absent. -/
theorem JsObj.lookup_none_not_mem {α : Type} :
    ∀ (st : List (String × α)) (k : String),
      JsObj.lookupKV st k = none → k ∉ JsObj.keysOf st := by
  intro st
  induction st with
  | nil => intro k _; simp [JsObj.keysOf]
  | cons kv rest ih =>
    intro k h
    by_cases h1 : kv.1 = k
    · simp [JsObj.lookupKV, h1] at h
    · simp [JsObj.lookupKV, h1] at h
      simp [JsObj.keysOf, List.mem_cons]
      exact ⟨fun hk => h1 hk.symm, by simpa [JsObj.keysOf] using ih k h⟩

/-- A successful read exhibits a store entry. -/
theorem JsObj.lookup_mem {α : Type} :
    ∀ (st : List (String × α)) (k : String) (e : α),
      JsObj.lookupKV st k = some e → (k, e) ∈ st := by
  intro st
  induction st with
  | nil => intro k e h; simp [JsObj.lookupKV] at h
  | cons kv rest ih =>
    intro k e h
    by_cases h1 : kv.1 = k
    · obtain ⟨k0, e0⟩ := kv
      simp_all [JsObj.lookupKV]
    · simp [JsObj.lookupKV, h1] at h
      exact List.mem_cons_of_mem _ (ih _ _ h)

/-- Decoding the encoding of a record recovers it, with the import-time
`updatedAt`. -/
theorem VarD.decode_enc (e : VarD.EntryD) (now : Nat) :
    VarD.decodeFields (VarD.encFields e) now = VarD.bump now e := rfl

/-- The import loop applied to the export of `todo`, when every exported
key is already trimmed and non-empty, performs exactly the accumulated
`objSet` updates. -/
theorem VarD.importLoop_encode (now : Nat) :
    ∀ (todo st : List (String × VarD.EntryD)),
      (∀ kv ∈ todo,
          normalizeName kv.1 = kv.1 ∧ isNonEmptyString kv.1 = true) →
      VarD.importLoop now
          (todo.map (fun kv => (kv.1, VarD.encodeEntry kv.2))) st
        = some (VarD.upd now todo st) := by
  intro todo
  induction todo with
  | nil => intro st _; rfl
  | cons kv rest ih =>
    intro st h
    have hk := h kv (by simp)
    have hstep : VarD.upd now (kv :: rest) st
        = VarD.upd now rest (JsObj.objSet st kv.1 (VarD.bump now kv.2)) := rfl
    rw [hstep]
    have hrest : ∀ kv' ∈ rest,
        normalizeName kv'.1 = kv'.1 ∧ isNonEmptyString kv'.1 = true :=
      fun kv' h' => h kv' (List.mem_cons_of_mem _ h')
    simp only [List.map_cons, VarD.importLoop, VarD.encodeEntry, hk.1, hk.2,
      VarD.decode_enc, if_true]
    exact ih _ hrest

/-- Keys absent from the update list are read back unchanged. -/
theorem VarD.upd_lookup_not_mem (now : Nat) :
    ∀ (todo st : List (String × VarD.EntryD)) (k : String),
      k ∉ JsObj.keysOf todo →
      JsObj.lookupKV (VarD.upd now todo st) k = JsObj.lookupKV st k := by
  intro todo
  induction todo with
  | nil => intro st k _; rfl
  | cons kv rest ih =>
    intro st k h
    have h1 : k ≠ kv.1 ∧ k ∉ JsObj.keysOf rest := by
      simpa [JsObj.keysOf, not_or] using h
    have hstep : VarD.upd now (kv :: rest) st
        = VarD.upd now rest (JsObj.objSet st kv.1 (VarD.bump now kv.2)) := rfl
    rw [hstep, ih _ _ h1.2, JsObj.lookup_objSet_ne _ _ _ _ h1.1]

/-- A key of the update list reads back its bumped record, provided the
update list has distinct keys. -/
theorem VarD.upd_lookup_mem (now : Nat) :
    ∀ (todo st : List (String × VarD.EntryD)) (k : String) (e : VarD.EntryD),
      (JsObj.keysOf todo).Nodup → (k, e) ∈ todo →
      JsObj.lookupKV (VarD.upd now todo st) k = some (VarD.bump now e) := by
  intro todo
  induction todo with
  | nil => intro st k e _ h; simp at h
  | cons kv rest ih =>
    intro st k e hnd hmem
    have hstep : VarD.upd now (kv :: rest) st
        = VarD.upd now rest (JsObj.objSet st kv.1 (VarD.bump now kv.2)) := rfl
    rw [hstep]
    have hnd' : kv.1 ∉ JsObj.keysOf rest ∧ (JsObj.keysOf rest).Nodup := by
      simpa [JsObj.keysOf] using hnd
    rcases List.mem_cons.mp hmem with heq | hrest
    · obtain ⟨k0, e0⟩ := kv
      obtain ⟨hk, he⟩ := Prod.mk.injEq .. ▸ heq
      subst hk
      subst he
      rw [VarD.upd_lookup_not_mem now rest _ k (by simpa using hnd'.1)]
      exact JsObj.lookup_objSet_self _ _ _
    · exact ih _ _ _ hnd'.2 hrest

/-- The update list of an import touches only existing keys, so
`Object.keys` is preserved. -/
theorem VarD.upd_keys (now : Nat) :
    ∀ (todo st : List (String × VarD.EntryD)),
      (∀ kv ∈ todo, kv.1 ∈ JsObj.keysOf st) →
      JsObj.keysOf (VarD.upd now todo st) = JsObj.keysOf st := by
  intro todo
  induction todo with
  | nil => intro st _; rfl
  | cons kv rest ih =>
    intro st h
    have hk := h kv (by simp)
    have hkeys : JsObj.keysOf (JsObj.objSet st kv.1 (VarD.bump now kv.2))
        = JsObj.keysOf st :=
      JsObj.keysOf_objSet_mem _ _ _ hk
    have hstep : VarD.upd now (kv :: rest) st
        = VarD.upd now rest (JsObj.objSet st kv.1 (VarD.bump now kv.2)) := rfl
    rw [hstep, ih _ (fun kv' h' => by
      rw [hkeys]; exact h kv' (List.mem_cons_of_mem _ h')), hkeys]

/-- C7: exporting the slot store and importing the exported snapshot back
(into the same store, as the UI does) yields an equivalent collection: the
same names in the same order and, for every name, the same `enabled` flag
and the same `code` text.  The hypotheses are the store invariants the UI
maintains: keys are trimmed, non-empty and distinct. -/
theorem c7_export_import_round_trip (scripts : List (String × VarD.EntryD))
    (now : Nat)
    (hwf : ∀ kv ∈ scripts,
        normalizeName kv.1 = kv.1 ∧ isNonEmptyString kv.1 = true)
    (hnodup : (JsObj.keysOf scripts).Nodup) :
    ∃ st, VarD.onImport (VarD.onExport scripts) scripts now
        = VarD.ImportResult.done st
      ∧ JsObj.keysOf st = JsObj.keysOf scripts
      ∧ ∀ k, (JsObj.lookupKV st k).map (fun e => (e.enabled, e.code))
            = (JsObj.lookupKV scripts k).map (fun e => (e.enabled, e.code)) := by
  refine ⟨VarD.upd now scripts scripts, ?_, ?_, ?_⟩
  · simp only [VarD.onExport, VarD.onImport]
    rw [VarD.importLoop_encode now scripts scripts hwf]
  · exact VarD.upd_keys now scripts scripts
      (fun kv h => List.mem_map_of_mem Prod.fst h)
  · intro k
    cases hq : JsObj.lookupKV scripts k with
    | none =>
      have hnm : k ∉ JsObj.keysOf scripts := JsObj.lookup_none_not_mem _ _ hq
      rw [VarD.upd_lookup_not_mem now scripts scripts k hnm, hq]
    | some e =>
      have hmem : (k, e) ∈ scripts := JsObj.lookup_mem _ _ _ hq
      rw [VarD.upd_lookup_mem now scripts scripts k e hnodup hmem]
      rfl

/-- Witness for C7: a concrete two-slot store round-trips. -/
theorem c7_export_import_round_trip_witness :
    ∃ st, VarD.onImport
        (VarD.onExport [("alpha", entryPlain), ("beta", entrySeven)])
        [("alpha", entryPlain), ("beta", entrySeven)] 9
        = VarD.ImportResult.done st
      ∧ JsObj.keysOf st
          = JsObj.keysOf [("alpha", entryPlain), ("beta", entrySeven)]
      ∧ ∀ k, (JsObj.lookupKV st k).map (fun e => (e.enabled, e.code))
            = (JsObj.lookupKV [("alpha", entryPlain), ("beta", entrySeven)]
                k).map (fun e => (e.enabled, e.code)) :=
  c7_export_import_round_trip [("alpha", entryPlain), ("beta", entrySeven)] 9
    (by decide) (by decide)

end ScriptSlots
